import Mathlib

/-!
# Verification of the quiz lifecycle engine

A shallow embedding of the quiz state machine, topic-performance ledger,
streak tracker, bookmark store and quiz-content parser of the study-assistant
application (sources: `quiz_module.py`, `profile_module.py`, `config.py`,
`main.py`, `pdf_analyze.py`), together with proofs of the specified
properties.

Conventions:
* Python dicts keyed by question index / topic are embedded as association
  lists with first-occurrence lookup and in-place value replacement
  (matching CPython dict semantics: insertion order kept, assignment to an
  existing key replaces its value in place).
* Python `st.session_state` is the `AppState` structure; each handler of the
  UI becomes a function `AppState → ... → AppState`.
* JSON values produced by `json.loads` are embedded as the inductive `Json`;
  numbers are parsed exactly into `ℚ` (the binary rounding of Python floats
  and the `NaN`/`Infinity` extensions are not modelled — no claim involves
  non-integral numbers).
-/

/-- JSON values as returned by `json.loads`.  Objects keep key insertion
order; parsing a duplicate key replaces the value of the first occurrence
in place, as CPython dicts do. -/
inductive Json where
  | null : Json
  | bool : Bool → Json
  | num : ℚ → Json
  | str : String → Json
  | arr : List Json → Json
  | obj : List (String × Json) → Json

/-- First-occurrence lookup in an association list (CPython `d[k]` /
`d.get(k)`). -/
def assocGet {κ α : Type} [DecidableEq κ] : List (κ × α) → κ → Option α
  | [], _ => none
  | (k', v) :: t, k => if k' = k then some v else assocGet t k

/-- Assignment `d[k] = v` on an association list: replaces the value at the
first occurrence of `k`, keeping its position, and appends `(k, v)` when `k`
is absent (CPython dict assignment semantics). -/
def assocSet {κ α : Type} [DecidableEq κ] : List (κ × α) → κ → α → List (κ × α)
  | [], k, v => [(k, v)]
  | (k', v') :: t, k, v => if k' = k then (k, v) :: t else (k', v') :: assocSet t k v

/-- Python `d.setdefault(k, v)`: inserts `(k, v)` when `k` is absent, otherwise
leaves the dict unchanged. -/
def assocSetdefault {κ α : Type} [DecidableEq κ] (m : List (κ × α)) (k : κ) (v : α) :
    List (κ × α) :=
  match assocGet m k with
  | some _ => m
  | none => m ++ [(k, v)]

/-- One entry of `st.session_state.answered_questions`
(`quiz_module.py`).  The Python value is a dict whose keys appear and
disappear per code path; the code reads `is_correct`, `is_skipped` and
`is_bookmarked` only through `.get(key, False)`, so an absent key is
identified with `false` here.  For `selected_idx` the code distinguishes
key absence (`"selected_idx" not in answer_info`, line 289) from the stored
Python `None` (skip stores `None`), hence the `Option (Option ℕ)`:
`none` = key absent, `some none` = stored `None`,
`some (some i)` = stored index `i`. -/
structure AnswerInfo where
  selected_idx : Option (Option ℕ)
  is_correct : Bool
  is_skipped : Bool
  is_bookmarked : Bool
deriving DecidableEq

/-- One entry of `st.session_state.topic_performance`
(`{"total_solved": int, "correct_solved": int}`). -/
structure TopicPerf where
  total_solved : ℕ
  correct_solved : ℕ
deriving DecidableEq

/-- A question dict as consumed by `display_quiz` (`quiz_module.py`):
`question`, `answers`, `correctAnswer` and the `explanation` payload, which
the state machine never inspects and carries verbatim. -/
structure Question where
  question : String
  answers : List String
  correctAnswer : ℤ
  explanation : Json

/-- The `question_with_meta` dict (`quiz_module.py` lines 273-275 and 408-410): a
copy of the question dict extended with `quiz_topic` and `question_idx`. -/
structure BookmarkEntry where
  question : String
  answers : List String
  correctAnswer : ℤ
  explanation : Json
  quiz_topic : String
  question_idx : ℕ

/-- Build `question_with_meta` from a question (`question.copy()` plus the
two added keys). -/
def mkBookmarkEntry (q : Question) (topic : String) (idx : ℕ) : BookmarkEntry :=
  { question := q.question
    answers := q.answers
    correctAnswer := q.correctAnswer
    explanation := q.explanation
    quiz_topic := topic
    question_idx := idx }

/-- Python `set.add` on the embedded topic set (`st.session_state.topics_covered`). -/
def setInsertStr (l : List String) (x : String) : List String :=
  if x ∈ l then l else l ++ [x]

/-- The assignment `st.session_state.streak_history[date] = True`: dates are embedded as
integers (days); the history is the set of marked days. -/
def setInsertInt (l : List ℤ) (x : ℤ) : List ℤ :=
  if x ∈ l then l else l ++ [x]

/-- The session-state fields of the application touched by the quiz
lifecycle (`config.py`, `initialize_session_state`). -/
structure AppState where
  quiz_questions : List Question
  current_question : ℕ
  showing_quiz : Bool
  score : ℕ
  answered_questions : List (ℕ × AnswerInfo)
  total_questions_solved : ℕ
  total_correct_answers : ℕ
  topics_covered : List String
  current_streak : ℕ
  last_quiz_date : Option ℤ
  streak_history : List ℤ
  topic_performance : List (String × TopicPerf)
  current_quiz_main_topic : String
  bookmarked_questions : List BookmarkEntry

/-- The initial session state (`config.py`, `initialize_session_state`). -/
def initialState : AppState :=
  { quiz_questions := []
    current_question := 0
    showing_quiz := false
    score := 0
    answered_questions := []
    total_questions_solved := 0
    total_correct_answers := 0
    topics_covered := []
    current_streak := 0
    last_quiz_date := none
    streak_history := []
    topic_performance := []
    current_quiz_main_topic := ""
    bookmarked_questions := [] }

/-- The topic-performance ledger update performed on submit
(`quiz_module.py` lines 316-322 and 439-445): insert `(0, 0)` for an unseen
topic, then increment `total_solved`, and `correct_solved` iff the answer
was correct.  The same update is performed per question by the PDF
analyzer (`pdf_analyze.py` lines 130-135). -/
def ledgerRecord (tp : List (String × TopicPerf)) (topic : String) (is_correct : Bool) :
    List (String × TopicPerf) :=
  let cur := (assocGet tp topic).getD ⟨0, 0⟩
  assocSet tp topic
    ⟨cur.total_solved + 1, cur.correct_solved + (if is_correct then 1 else 0)⟩

/-- The state mutations common to both submit paths of `display_quiz`
(`quiz_module.py` lines 305-322 and 426-445): store the answered entry,
bump the global counters and the ledger. -/
def applySubmit (s : AppState) (selected_idx : ℕ) (is_correct : Bool)
    (is_bookmarked : Bool) : AppState :=
  { s with
    answered_questions :=
      assocSet s.answered_questions s.current_question
        ⟨some (some selected_idx), is_correct, false, is_bookmarked⟩
    total_questions_solved := s.total_questions_solved + 1
    score := s.score + (if is_correct then 1 else 0)
    total_correct_answers := s.total_correct_answers + (if is_correct then 1 else 0)
    topic_performance :=
      ledgerRecord s.topic_performance s.current_quiz_main_topic is_correct }

/-- The "Submit Answer" handler of `display_quiz` for the current question.
Control flow translated from `quiz_module.py`: the completed-quiz branch
returns before any button (line 252), so a submit exists only when the
cursor points at a question; an absent `answered_questions` entry renders
the plain submit button (lines 416-447); an entry that is bookmark-only
(no `selected_idx` key, not skipped) renders the post-bookmark submit
button (lines 289-324); any other entry renders no submit control at all
(lines 335-357), so the action leaves the state unchanged. -/
def submitAction (s : AppState) (selected_idx : ℕ) : AppState :=
  match s.quiz_questions.get? s.current_question with
  | none => s
  | some question =>
    match assocGet s.answered_questions s.current_question with
    | none =>
      let is_correct : Bool := decide ((selected_idx : ℤ) = question.correctAnswer)
      applySubmit s selected_idx is_correct false
    | some info =>
      if info.selected_idx.isNone && !info.is_skipped then
        let is_correct : Bool := decide ((selected_idx : ℤ) = question.correctAnswer)
        applySubmit s selected_idx is_correct info.is_bookmarked
      else s

/-- The "Skip Question" handler of `display_quiz` (`quiz_module.py` lines
449-464 for a fresh question, lines 326-333 for a bookmark-only entry):
store `selected_idx = None`, `is_correct = False`, `is_skipped = True`,
preserve the bookmark flag, and advance the cursor by one.  No skip
control is rendered for a finalized question, so the action is the
identity there. -/
def skipAction (s : AppState) : AppState :=
  match s.quiz_questions.get? s.current_question with
  | none => s
  | some _ =>
    match assocGet s.answered_questions s.current_question with
    | none =>
      { s with
        answered_questions :=
          assocSet s.answered_questions s.current_question
            ⟨some none, false, true, false⟩
        current_question := s.current_question + 1 }
    | some info =>
      if info.selected_idx.isNone && !info.is_skipped then
        { s with
          answered_questions :=
            assocSet s.answered_questions s.current_question
              ⟨some none, false, true, info.is_bookmarked⟩
          current_question := s.current_question + 1 }
      else s

/-- The append `bookmarked_questions.append(...)` (`quiz_module.py` lines 278, 411). -/
def bookmarkAdd (bm : List BookmarkEntry) (e : BookmarkEntry) : List BookmarkEntry :=
  bm ++ [e]

/-- The unbookmark filter (`quiz_module.py` lines 281-285): keep exactly
the entries whose `(question, quiz_topic)` pair does not match. -/
def bookmarkRemove (bm : List BookmarkEntry) (question topic : String) :
    List BookmarkEntry :=
  bm.filter (fun q => !(decide (q.question = question ∧ q.quiz_topic = topic)))

/-- The bookmark button of `display_quiz`.  For a question with no
`answered_questions` entry (lines 396-414): create a bookmark-only entry
and append a snapshot.  For a question with an entry (lines 266-286):
toggle the flag; append a snapshot when it was clear, filter matching
snapshots out when it was set. -/
def bookmarkAction (s : AppState) : AppState :=
  match s.quiz_questions.get? s.current_question with
  | none => s
  | some question =>
    match assocGet s.answered_questions s.current_question with
    | none =>
      { s with
        answered_questions :=
          assocSet s.answered_questions s.current_question ⟨none, false, false, true⟩
        bookmarked_questions :=
          bookmarkAdd s.bookmarked_questions
            (mkBookmarkEntry question s.current_quiz_main_topic s.current_question) }
    | some info =>
      let s1 : AppState :=
        { s with
          answered_questions :=
            assocSet s.answered_questions s.current_question
              { info with is_bookmarked := !info.is_bookmarked } }
      if !info.is_bookmarked then
        { s1 with
          bookmarked_questions :=
            bookmarkAdd s1.bookmarked_questions
              (mkBookmarkEntry question s.current_quiz_main_topic s.current_question) }
      else
        { s1 with
          bookmarked_questions :=
            bookmarkRemove s1.bookmarked_questions question.question
              s.current_quiz_main_topic }

/-- The "Next Question" button (`quiz_module.py` lines 382-384), rendered
only for a question whose entry has a `selected_idx` key or is skipped
(line 360): advance the cursor by one. -/
def advanceAction (s : AppState) : AppState :=
  match s.quiz_questions.get? s.current_question with
  | none => s
  | some _ =>
    match assocGet s.answered_questions s.current_question with
    | none => s
    | some info =>
      if !info.selected_idx.isNone || info.is_skipped then
        { s with current_question := s.current_question + 1 }
      else s

/-- The quiz-generation form handler (`quiz_module.py` lines 125-141):
store the generation result in `quiz_questions` unconditionally (line 127);
only when it is non-empty, enter the quiz and reset the per-session
fields (lines 129-139). -/
def quizFormSubmit (s : AppState) (result : List Question) (topic : String) : AppState :=
  let s1 : AppState := { s with quiz_questions := result }
  if !result.isEmpty then
    { s1 with
      showing_quiz := true
      current_question := 0
      score := 0
      answered_questions := []
      topics_covered := setInsertStr s1.topics_covered topic
      current_quiz_main_topic := topic }
  else s1

/-- The value `generate_quiz` returns when the provider call raises
(`quiz_module.py` lines 89-91): the failure is reported via `st.error`
and the empty list is returned. -/
def generate_quiz_failure : List Question := []

/-- The streak update run by the quiz-completed branch of `display_quiz`
(`quiz_module.py` lines 183-200): mark today in the streak history, then
recompute the current streak from the last completion date (`+1` on the
next day, unchanged on the same day, reset to 1 otherwise, and 1 when no
completion was recorded before), and store today as the last completion
date. -/
def recordCompletion (s : AppState) (today : ℤ) : AppState :=
  { s with
    streak_history := setInsertInt s.streak_history today
    current_streak :=
      match s.last_quiz_date with
      | some last =>
        if today = last + 1 then s.current_streak + 1
        else if today = last then s.current_streak
        else 1
      | none => 1
    last_quiz_date := some today }

/-- The "Start New Quiz" button of the completed screen (`quiz_module.py`
lines 245-251). -/
def startNewQuiz (s : AppState) : AppState :=
  { s with
    showing_quiz := false
    quiz_questions := []
    current_question := 0
    score := 0
    answered_questions := [] }

/-- The "Back to Quiz Generator" button, rendered only when
`quiz_questions` is empty (`quiz_module.py` lines 147-152). -/
def backToGenerator (s : AppState) : AppState :=
  { s with showing_quiz := false }

/-- The gamification ingestion of the PDF analyzer (`pdf_analyze.py` lines
117-138): add the analyzed totals to the global counters and run the
per-question ledger update for each analyzed `(topic, is_correct)` pair.
It touches no quiz-session field. -/
def pdfIngest (s : AppState) (total_add correct_add : ℕ)
    (qa : List (String × Bool)) (weak : List String) : AppState :=
  { s with
    total_questions_solved := s.total_questions_solved + total_add
    total_correct_answers := s.total_correct_answers + correct_add
    topic_performance := qa.foldl (fun tp p => ledgerRecord tp p.1 p.2) s.topic_performance
    topics_covered := weak.foldl setInsertStr s.topics_covered }

/-! ## Python string primitives used by `generate_quiz` -/

/-- Fuelled scan for `str.replace`.  Every step consumes at least one
input character (the matched pattern is non-empty when taken), so fuel
equal to the input length is ample. -/
def pyReplaceFuel : ℕ → List Char → List Char → List Char → List Char
  | 0, s, _, _ => s
  | fuel + 1, s, pat, repl =>
    match s with
    | [] => []
    | c :: t =>
      if pat ≠ [] ∧ pat.isPrefixOf (c :: t) then
        repl ++ pyReplaceFuel fuel ((c :: t).drop pat.length) pat repl
      else
        c :: pyReplaceFuel fuel t pat repl

/-- Python `str.replace(pat, repl)`: replace every non-overlapping occurrence of
`pat`, scanning left to right.  Both call sites in `generate_quiz` use a
non-empty pattern; for the (unused) empty pattern this embedding returns
the string unchanged. -/
def pyReplace (s pat repl : List Char) : List Char :=
  pyReplaceFuel s.length s pat repl

/-- ASCII whitespace stripped by `str.strip()` (the Unicode whitespace
beyond ASCII is not modelled; no claim involves it). -/
def isPyWs (c : Char) : Bool :=
  c = ' ' || c = '\t' || c = '\n' || c = '\r' || c = '\x0b' || c = '\x0c'

/-- Python `str.strip()`. -/
def pyStrip (s : List Char) : List Char :=
  ((s.dropWhile isPyWs).reverse.dropWhile isPyWs).reverse

/-- Python `str.find(ch)` for a one-character needle: index of the first
occurrence, `-1` when absent. -/
def pyFind (s : List Char) (ch : Char) : ℤ :=
  match s.findIdx? (fun c => c = ch) with
  | some i => (i : ℤ)
  | none => -1

/-- Python `str.rfind(ch)` for a one-character needle: index of the last
occurrence, `-1` when absent. -/
def pyRfind (s : List Char) (ch : Char) : ℤ :=
  match s.reverse.findIdx? (fun c => c = ch) with
  | some i => (s.length : ℤ) - 1 - (i : ℤ)
  | none => -1

/-- Python slicing `s[a:b]` for `0 ≤ a ≤ b` (the only use, `response_text[json_start:json_end]`,
is guarded so that both bounds are non-negative). -/
def pySlice (s : List Char) (a b : ℤ) : List Char :=
  (s.take b.toNat).drop a.toNat

/-! ## `json.loads`, embedded

A recursive-descent parser for the JSON grammar accepted by
`json.loads` with its default settings: RFC 8259 values, strict strings
(unescaped control characters rejected), no leading zeros, `\uXXXX`
escapes mapped through `Char.ofNat` (surrogate-pair combining and the
non-standard `NaN`/`Infinity` literals are not modelled; no claim involves
them).  Recursion is fuelled; `jsonParse` supplies fuel ample for its
input. -/

/-- JSON insignificant whitespace. -/
def isJsonWs (c : Char) : Bool :=
  c = ' ' || c = '\t' || c = '\n' || c = '\r'

/-- Skip insignificant whitespace. -/
def skipWs : List Char → List Char
  | [] => []
  | c :: t => if isJsonWs c then skipWs t else c :: t

/-- Value of a hex digit. -/
def hexVal (c : Char) : Option ℕ :=
  if '0' ≤ c ∧ c ≤ '9' then some (c.toNat - '0'.toNat)
  else if 'a' ≤ c ∧ c ≤ 'f' then some (c.toNat - 'a'.toNat + 10)
  else if 'A' ≤ c ∧ c ≤ 'F' then some (c.toNat - 'A'.toNat + 10)
  else none

/-- A single-character JSON string escape. -/
def escChar (c : Char) : Option Char :=
  if c = '"' then some '"'
  else if c = '\\' then some '\\'
  else if c = '/' then some '/'
  else if c = 'b' then some '\x08'
  else if c = 'f' then some '\x0c'
  else if c = 'n' then some '\n'
  else if c = 'r' then some '\r'
  else if c = 't' then some '\t'
  else none

/-- Body of a JSON string after the opening quote, up to and including the
closing quote.  Fuelled for termination; every step consumes at least one
character, so fuel `≥ length` is ample. -/
def parseStringBody : ℕ → List Char → Option (List Char × List Char)
  | 0, _ => none
  | _ + 1, [] => none
  | fuel + 1, c :: t =>
    if c = '"' then some ([], t)
    else if c = '\\' then
      match t with
      | [] => none
      | e :: t2 =>
        if e = 'u' then
          match t2 with
          | h1 :: h2 :: h3 :: h4 :: t3 => do
            let a ← hexVal h1
            let b ← hexVal h2
            let cc ← hexVal h3
            let d ← hexVal h4
            let (body, rest) ← parseStringBody fuel t3
            pure (Char.ofNat (((a * 16 + b) * 16 + cc) * 16 + d) :: body, rest)
          | _ => none
        else do
          let ec ← escChar e
          let (body, rest) ← parseStringBody fuel t2
          pure (ec :: body, rest)
    else if c.toNat < 32 then none
    else do
      let (body, rest) ← parseStringBody fuel t
      pure (c :: body, rest)

/-- Digits of a decimal literal, greedily. -/
def takeDigits (s : List Char) : List Char × List Char :=
  s.span Char.isDigit

/-- Numeric value of a digit string. -/
def digitsToNat (ds : List Char) : ℕ :=
  ds.foldl (fun acc c => acc * 10 + (c.toNat - '0'.toNat)) 0

/-- The integer part of a JSON number: `0`, or a nonzero digit followed by
digits (leading zeros rejected, as `json.loads` does). -/
def parseIntPart : List Char → Option (ℕ × List Char)
  | [] => none
  | c :: t =>
    if c = '0' then
      match t with
      | d :: _ => if d.isDigit then none else some (0, t)
      | [] => some (0, [])
    else if c.isDigit then
      let (ds, rest) := takeDigits (c :: t)
      some (digitsToNat ds, rest)
    else none

/-- The optional fraction: `.` followed by one or more digits.  Returns the
fraction numerator, the number of fraction digits, and the rest. -/
def parseFracPart : List Char → Option (ℕ × ℕ × List Char)
  | '.' :: t =>
    let (ds, rest) := takeDigits t
    if ds.isEmpty then none else some (digitsToNat ds, ds.length, rest)
  | rest => some (0, 0, rest)

/-- The optional exponent: `e`/`E`, optional sign, one or more digits.
Returns the signed exponent and the rest. -/
def parseExpPart : List Char → Option (ℤ × List Char)
  | c :: t =>
    if c = 'e' ∨ c = 'E' then
      match t with
      | '+' :: t2 =>
        let (ds, rest) := takeDigits t2
        if ds.isEmpty then none else some ((digitsToNat ds : ℤ), rest)
      | '-' :: t2 =>
        let (ds, rest) := takeDigits t2
        if ds.isEmpty then none else some (-(digitsToNat ds : ℤ), rest)
      | _ =>
        let (ds, rest) := takeDigits t
        if ds.isEmpty then none else some ((digitsToNat ds : ℤ), rest)
    else some (0, c :: t)
  | [] => some (0, [])

/-- A JSON number, valued exactly in `ℚ`.  `json.loads` returns a Python
`int` when neither a fraction nor an exponent is present and a `float`
otherwise; both are embedded in `ℚ`, the integer case directly (so that it
reduces definitionally) and the float case through the scaling formula. -/
def parseNumber (s : List Char) : Option (Json × List Char) := do
  let (neg, s1) :=
    match s with
    | '-' :: t => (true, t)
    | _ => (false, s)
  let (ip, s2) ← parseIntPart s1
  let (fp, fl, s3) ← parseFracPart s2
  let (ex, s4) ← parseExpPart s3
  let q : ℚ :=
    if fl = 0 ∧ ex = 0 then (ip : ℚ)
    else
      let mantissa : ℚ := ((ip * 10 ^ fl + fp : ℕ) : ℚ) / ((10 : ℚ) ^ fl)
      if 0 ≤ ex then mantissa * (10 : ℚ) ^ ex.toNat else mantissa / (10 : ℚ) ^ (-ex).toNat
  pure (Json.num (if neg then -q else q), s4)

mutual

/-- A JSON value (fuelled). -/
def parseValue : ℕ → List Char → Option (Json × List Char)
  | 0, _ => none
  | fuel + 1, cs =>
    match skipWs cs with
    | 'n' :: 'u' :: 'l' :: 'l' :: r => some (Json.null, r)
    | 't' :: 'r' :: 'u' :: 'e' :: r => some (Json.bool true, r)
    | 'f' :: 'a' :: 'l' :: 's' :: 'e' :: r => some (Json.bool false, r)
    | '"' :: r =>
      match parseStringBody (r.length + 1) r with
      | some (body, rest) => some (Json.str (String.mk body), rest)
      | none => none
    | '[' :: r => parseArrayTail fuel r
    | '\x7b' :: r => parseObjectTail fuel r
    | c :: r =>
      if c = '-' ∨ c.isDigit then parseNumber (c :: r) else none
    | [] => none

/-- The rest of an array after `[`. -/
def parseArrayTail : ℕ → List Char → Option (Json × List Char)
  | 0, _ => none
  | fuel + 1, cs =>
    match skipWs cs with
    | ']' :: r => some (Json.arr [], r)
    | _ => do
      let (v, r1) ← parseValue fuel cs
      let (vs, r2) ← parseArrayItems fuel r1
      pure (Json.arr (v :: vs), r2)

/-- Further array items: `, value` repeated, then `]`. -/
def parseArrayItems : ℕ → List Char → Option (List Json × List Char)
  | 0, _ => none
  | fuel + 1, cs =>
    match skipWs cs with
    | ']' :: r => some ([], r)
    | ',' :: r => do
      let (v, r1) ← parseValue fuel r
      let (vs, r2) ← parseArrayItems fuel r1
      pure (v :: vs, r2)
    | _ => none

/-- The rest of an object after `{`. -/
def parseObjectTail : ℕ → List Char → Option (Json × List Char)
  | 0, _ => none
  | fuel + 1, cs =>
    match skipWs cs with
    | '\x7d' :: r => some (Json.obj [], r)
    | _ => do
      let (k, v, r1) ← parseMember fuel cs
      let (kvs, r2) ← parseObjectItems fuel r1
      pure (Json.obj (assocSet [] k v |> (fun first => kvs.foldl (fun acc p => assocSet acc p.1 p.2) first)), r2)

/-- Further object members: `, member` repeated, then `}`.  Returns the
members in source order; duplicate-key folding happens in
`parseObjectTail`. -/
def parseObjectItems : ℕ → List Char → Option (List (String × Json) × List Char)
  | 0, _ => none
  | fuel + 1, cs =>
    match skipWs cs with
    | '\x7d' :: r => some ([], r)
    | ',' :: r => do
      let (k, v, r1) ← parseMember fuel r
      let (kvs, r2) ← parseObjectItems fuel r1
      pure ((k, v) :: kvs, r2)
    | _ => none

/-- One object member: `"key" : value`. -/
def parseMember : ℕ → List Char → Option (String × Json × List Char)
  | 0, _ => none
  | fuel + 1, cs =>
    match skipWs cs with
    | '"' :: r =>
      match parseStringBody (r.length + 1) r with
      | some (body, r1) =>
        match skipWs r1 with
        | ':' :: r2 => do
          let (v, r3) ← parseValue fuel r2
          pure (String.mk body, v, r3)
        | _ => none
      | none => none
    | _ => none

end

/-- Embedded `json.loads`: parse one JSON value and require only whitespace after
it.  The fuel bound is ample: along any recursion path each fuel unit is
matched by at least one consumed input character or one grammar
production. -/
def jsonParse (s : List Char) : Option Json :=
  match parseValue (2 * s.length + 4) s with
  | some (v, rest) => if (skipWs rest).isEmpty then some v else none
  | none => none

/-! ## The quiz-content parser (`generate_quiz`, `quiz_module.py` lines 55-91)

The provider call itself is the external collaborator; the parsing of its
response text into a question list is embedded below.  `st.error(...)`
diagnostics are embedded as the `Option String` component of the result.
-/

/-- Lines 58-59: strip the markdown fences and surrounding whitespace. -/
def cleanText (response_text : String) : List Char :=
  pyStrip (pyReplace (pyReplace response_text.data "```json".data []) "```".data [])

/-- Lines 61-73: locate the candidate JSON substring between the first `[`
and the last `]`; `none` when the guard
`json_start != -1 and json_end != -1 and json_end > json_start` fails. -/
def locateCandidate (t : List Char) : Option (List Char) :=
  let json_start := pyFind t '['
  let json_end := pyRfind t ']' + 1
  if json_start ≠ -1 ∧ json_end ≠ -1 ∧ json_end > json_start then
    some (pySlice t json_start json_end)
  else none

/-- The fixed placeholder for a missing `detailed_steps` field
(line 80-81). -/
def missingStepsPlaceholder : String :=
  "Explanation not generated. Please refer to solution links."

/-- Lines 80-82, the two `setdefault`s on the explanation dict: fill a
missing `detailed_steps` with the fixed placeholder and a missing
`youtube_link` with the empty string; fields that are present are kept. -/
def normalizeExplanation (e : List (String × Json)) : List (String × Json) :=
  assocSetdefault (assocSetdefault e "detailed_steps" (Json.str missingStepsPlaceholder))
    "youtube_link" (Json.str "")

/-- Lines 77-82, one loop iteration: `question.setdefault('explanation', {})`
then the two `setdefault`s on the explanation dict.  The element must be a
dict and its `explanation` value (after the first `setdefault`) must be a
dict; anything else raises `AttributeError` in Python — surfaced here as
`none`, which `generate_quiz_parse` turns into the caught-exception
result. -/
def normalizeQuestion (j : Json) : Option Json :=
  match j with
  | Json.obj kvs =>
    let kvs1 := assocSetdefault kvs "explanation" (Json.obj [])
    match assocGet kvs1 "explanation" with
    | some (Json.obj e) =>
      some (Json.obj (assocSet kvs1 "explanation" (Json.obj (normalizeExplanation e))))
    | _ => none
  | _ => none

/-- Normalize every parsed question; any failure aborts the batch (the
Python exception propagates to the `except` of `generate_quiz`). -/
def normalizeQuestions : List Json → Option (List Json)
  | [] => some []
  | j :: t => do
    let j1 ← normalizeQuestion j
    let t1 ← normalizeQuestions t
    pure (j1 :: t1)

/-- The parsing portion of `generate_quiz` (`quiz_module.py` lines 55-91)
as a function of the provider's response text: the returned question list
together with the `st.error` diagnostic, if one was reported.  The
candidate substring starts at a `[`, so a successful `json.loads` on it is
necessarily an array; the defensive `some _` arm mirrors the enclosing
`except` clause. -/
def generate_quiz_parse (response_text : String) : List Json × Option String :=
  match locateCandidate (cleanText response_text) with
  | none => ([], some "Failed to find valid JSON array in response")
  | some candidate =>
    match jsonParse candidate with
    | none => ([], some "JSON Decode Error")
    | some (Json.arr []) => ([], some "Generated quiz is empty")
    | some (Json.arr (x :: xs)) =>
      match normalizeQuestions (x :: xs) with
      | some ys => (ys, none)
      | none => ([], some "Error generating quiz")
    | some _ => ([], some "Error generating quiz")

/-! ## The profile accuracy displays (`profile_module.py`) -/

/-- The overall accuracy metric (`profile_module.py` lines 24-26):
`(total_corr_ans / total_q_solved * 100) if total_q_solved > 0 else 0`. -/
def overallAccuracy (total_corr_ans total_q_solved : ℕ) : ℚ :=
  if total_q_solved > 0 then (total_corr_ans : ℚ) / (total_q_solved : ℚ) * 100 else 0

/-- The per-topic percentage (`profile_module.py` lines 48-52):
`(correct / total * 100) if total > 0 else 0`. -/
def topicPercentage (p : TopicPerf) : ℚ :=
  if p.total_solved > 0 then
    (p.correct_solved : ℚ) / (p.total_solved : ℚ) * 100
  else 0

/-- The tag colour of a topic (`profile_module.py` lines 54-61): the
neutral theme colour for an unattempted topic, otherwise green / orange /
red by percentage thresholds. -/
def topicColor (p : TopicPerf) : String :=
  if p.total_solved > 0 then
    if topicPercentage p ≥ 75 then "green"
    else if topicPercentage p ≥ 50 then "orange"
    else "red"
  else "var(--text-color)"

/-! ## Derived state predicates and reachability -/

/-- The current question is unanswered in the sense of the state machine:
no `answered_questions` entry, or a bookmark-only entry (no `selected_idx`
key, not skipped).  These are exactly the two situations in which
`display_quiz` renders Submit and Skip controls (lines 289 and 385). -/
def isUnanswered (m : List (ℕ × AnswerInfo)) (i : ℕ) : Bool :=
  match assocGet m i with
  | none => true
  | some info => info.selected_idx.isNone && !info.is_skipped

/-- The number of answered-map entries whose `is_correct` flag is set —
the quantity `display_quiz` computes at line 163
(`sum(1 for ... if ans_info.get("is_correct", False))`). -/
def countCorrect (m : List (ℕ × AnswerInfo)) : ℕ :=
  (m.filter (fun p => p.2.is_correct)).length

/-- Auxiliary invariant of the answered map: an entry without a
`selected_idx` key (bookmark-only) never has `is_correct` set. -/
def goodMap (m : List (ℕ × AnswerInfo)) : Prop :=
  ∀ k v, assocGet m k = some v → v.selected_idx = none → v.is_correct = false

/-- One user-visible action of the application, as dispatched by `main.py`:
the quiz-generator form runs only while `showing_quiz` is false
(`main.py` lines 61-65), every `display_quiz` control only while it is
true; the completion branch and its "Start New Quiz" button run only with
a non-empty question list (line 147 returns first) and the cursor past the
end (line 178); "Back to Quiz Generator" only with an empty question list
(lines 147-152).  The PDF analyzer's ingestion and the profile page's
bookmark removal run from any state; the latter touches only
`bookmarked_questions` (`profile_module.py` lines 121-123) and is
over-approximated by an arbitrary update of that field.  "Clear All App
Data" (`main.py` lines 49-57) resets the state. -/
inductive AppStep : AppState → AppState → Prop where
  | genSubmit (s : AppState) (result : List Question) (topic : String) :
      s.showing_quiz = false → AppStep s (quizFormSubmit s result topic)
  | submit (s : AppState) (idx : ℕ) :
      s.showing_quiz = true → AppStep s (submitAction s idx)
  | skip (s : AppState) :
      s.showing_quiz = true → AppStep s (skipAction s)
  | bookmark (s : AppState) :
      s.showing_quiz = true → AppStep s (bookmarkAction s)
  | advance (s : AppState) :
      s.showing_quiz = true → AppStep s (advanceAction s)
  | complete (s : AppState) (today : ℤ) :
      s.showing_quiz = true → s.quiz_questions.isEmpty = false →
      s.quiz_questions.length ≤ s.current_question →
      AppStep s (recordCompletion s today)
  | startNew (s : AppState) :
      s.showing_quiz = true → s.quiz_questions.isEmpty = false →
      s.quiz_questions.length ≤ s.current_question →
      AppStep s (startNewQuiz s)
  | backToGen (s : AppState) :
      s.showing_quiz = true → s.quiz_questions = [] →
      AppStep s (backToGenerator s)
  | pdf (s : AppState) (a b : ℕ) (qa : List (String × Bool)) (weak : List String) :
      AppStep s (pdfIngest s a b qa weak)
  | profileRemove (s : AppState) (bm : List BookmarkEntry) :
      AppStep s { s with bookmarked_questions := bm }
  | clearAll (s : AppState) :
      AppStep s initialState

/-- States of the application reachable from the initial session state. -/
def AppReachable (s : AppState) : Prop :=
  Relation.ReflTransGen AppStep initialState s

/-- States of a quiz session reachable from a freshly generated quiz
(a successful `quizFormSubmit`) by submit, skip, bookmark and advance
actions. -/
inductive QuizReach : AppState → Prop where
  | start (s : AppState) (result : List Question) (topic : String) :
      result.isEmpty = false → QuizReach (quizFormSubmit s result topic)
  | submit (s : AppState) (idx : ℕ) : QuizReach s → QuizReach (submitAction s idx)
  | skip (s : AppState) : QuizReach s → QuizReach (skipAction s)
  | bookmark (s : AppState) : QuizReach s → QuizReach (bookmarkAction s)
  | advance (s : AppState) : QuizReach s → QuizReach (advanceAction s)

/-- A sample question for concrete witnesses. -/
def sampleQuestion : Question :=
  { question := "Q"
    answers := ["a", "b", "c", "d"]
    correctAnswer := 1
    explanation := Json.null }

/-- The state right after generating a one-question quiz on "Optics" from
the initial state. -/
def sampleStart : AppState :=
  quizFormSubmit initialState [sampleQuestion] "Optics"

/-- A sample bookmark snapshot. -/
def sampleEntry : BookmarkEntry :=
  mkBookmarkEntry sampleQuestion "Optics" 0

/-- The test input of the spec for the content parser: prose, a fenced
JSON array, one question, `correctAnswer` 1, no explanation. -/
def c7Input : String :=
  "Here you go:\n```json\n[\x7b\"question\":\"Q\",\"answers\":[\"a\",\"b\",\"c\",\"d\"],\"correctAnswer\":1\x7d]\n```"

/-! ## Association-list lemmas -/

theorem assocGet_assocSet_self {κ α : Type} [DecidableEq κ] (m : List (κ × α)) (k : κ) (v : α) :
    assocGet (assocSet m k v) k = some v := by
  induction m with
  | nil => simp [assocGet, assocSet]
  | cons p t ih =>
    obtain ⟨k', v'⟩ := p
    by_cases h : k' = k
    · subst h
      simp [assocGet, assocSet]
    · simp [assocGet, assocSet, h, ih]

theorem assocGet_assocSet_ne {κ α : Type} [DecidableEq κ] (m : List (κ × α)) (k k' : κ) (v : α)
    (hne : k' ≠ k) : assocGet (assocSet m k v) k' = assocGet m k' := by
  have hne' : ¬ k = k' := fun h => hne h.symm
  induction m with
  | nil => simp [assocGet, assocSet, hne']
  | cons p t ih =>
    obtain ⟨k1, v1⟩ := p
    by_cases h : k1 = k
    · subst h
      simp [assocGet, assocSet, hne']
    · simp [assocGet, assocSet, h, ih]

theorem countCorrect_nil : countCorrect [] = 0 := rfl

theorem countCorrect_cons (k : ℕ) (v : AnswerInfo) (t : List (ℕ × AnswerInfo)) :
    countCorrect ((k, v) :: t) = (if v.is_correct then 1 else 0) + countCorrect t := by
  simp only [countCorrect, List.filter_cons]
  split
  · simp_all [Nat.add_comm]
  · simp_all

theorem countCorrect_set_of_none (m : List (ℕ × AnswerInfo)) (k : ℕ) (v : AnswerInfo)
    (h : assocGet m k = none) :
    countCorrect (assocSet m k v) = countCorrect m + (if v.is_correct then 1 else 0) := by
  induction m with
  | nil =>
    simp [assocSet, countCorrect_cons, countCorrect_nil, Nat.add_comm]
  | cons p t ih =>
    obtain ⟨k1, v1⟩ := p
    by_cases hk : k1 = k
    · subst hk
      simp [assocGet] at h
    · simp only [assocGet, if_neg hk] at h
      simp only [assocSet, if_neg hk, countCorrect_cons, ih h]
      omega

theorem countCorrect_set_of_some (m : List (ℕ × AnswerInfo)) (k : ℕ) (v w : AnswerInfo)
    (h : assocGet m k = some w) :
    countCorrect (assocSet m k v) + (if w.is_correct then 1 else 0)
      = countCorrect m + (if v.is_correct then 1 else 0) := by
  induction m with
  | nil => simp [assocGet] at h
  | cons p t ih =>
    obtain ⟨k1, v1⟩ := p
    by_cases hk : k1 = k
    · subst hk
      rw [show assocGet ((k1, v1) :: t) k1 = some v1 by simp [assocGet]] at h
      injection h with h
      subst h
      simp [assocSet, countCorrect_cons]
      omega
    · simp only [assocGet, if_neg hk] at h
      simp only [assocSet, if_neg hk, countCorrect_cons]
      have := ih h
      omega

/-- C4: the streak recomputation on quiz completion (`quiz_module.py`
lines 183-200) gives streak 1 with no prior completion; increments by 1
when completing exactly one day after the most recent completion; leaves
the streak unchanged on a same-day repeat; resets to 1 after a gap of two
or more days; and on the example run d, d+1, d+3 from no prior completion
produces streaks 1, 2, 1. -/
theorem claim_C4 :
    (∀ (s : AppState) (d : ℤ), s.last_quiz_date = none →
      (recordCompletion s d).current_streak = 1) ∧
    (∀ (s : AppState) (l d : ℤ), s.last_quiz_date = some l → d = l + 1 →
      (recordCompletion s d).current_streak = s.current_streak + 1) ∧
    (∀ (s : AppState) (l : ℤ), s.last_quiz_date = some l →
      (recordCompletion s l).current_streak = s.current_streak) ∧
    (∀ (s : AppState) (l d : ℤ), s.last_quiz_date = some l → l + 2 ≤ d →
      (recordCompletion s d).current_streak = 1) ∧
    (∀ (s : AppState) (d : ℤ), s.last_quiz_date = none →
      (recordCompletion s d).current_streak = 1 ∧
      (recordCompletion (recordCompletion s d) (d + 1)).current_streak = 2 ∧
      (recordCompletion (recordCompletion (recordCompletion s d) (d + 1)) (d + 3)).current_streak
        = 1) := by
  refine ⟨?_, ?_, ?_, ?_, ?_⟩
  · intro s d h
    simp [recordCompletion, h]
  · intro s l d h hd
    subst hd
    simp [recordCompletion, h]
  · intro s l h
    have h1 : ¬ (l = l + 1) := by omega
    simp [recordCompletion, h, h1]
  · intro s l d h hgap
    have h1 : ¬ (d = l + 1) := by omega
    have h2 : ¬ (d = l) := by omega
    simp [recordCompletion, h, h1, h2]
  · intro s d h
    have h1 : ¬ (d + 3 = d + 1 + 1) := by omega
    have h2 : ¬ (d + 3 = d + 1) := by omega
    refine ⟨by simp [recordCompletion, h], by simp [recordCompletion, h], ?_⟩
    simp [recordCompletion, h, h1, h2]

/-- Witness for C4 at concrete dates 5, 6, 8 from the initial state. -/
theorem claim_C4_witness :
    (recordCompletion initialState 5).current_streak = 1 ∧
    (recordCompletion (recordCompletion initialState 5) 6).current_streak = 2 ∧
    (recordCompletion (recordCompletion (recordCompletion initialState 5) 6) 8).current_streak
      = 1 ∧
    (recordCompletion (recordCompletion initialState 5) 5).current_streak = 1 ∧
    (recordCompletion (recordCompletion initialState 5) 9).current_streak = 1 := by
  have hexample := claim_C4.2.2.2.2 initialState 5 rfl
  refine ⟨claim_C4.1 initialState 5 rfl, hexample.2.1, hexample.2.2, ?_, ?_⟩
  · exact claim_C4.2.2.1 (recordCompletion initialState 5) 5 rfl
  · exact claim_C4.2.2.2.1 (recordCompletion initialState 5) 5 9 rfl (by decide)

/-- Counterexample to C5 as stated: for a topic with zero attempts the
accuracy display computes the plain numeric value 0
(`profile_module.py` lines 26 and 52), the very same numeric value a
genuinely attempted topic with zero correct answers gets — not a
distinguished "not determinable" sentinel. -/
theorem claim_C5_counterexample :
    topicPercentage ⟨0, 0⟩ = 0 ∧ topicPercentage ⟨1, 0⟩ = 0 ∧ overallAccuracy 0 0 = 0 := by
  refine ⟨?_, ?_, ?_⟩ <;> simp [topicPercentage, overallAccuracy]

/-- C5 (amended): for a topic with zero attempts the accuracy value shown
is the numeric 0 — indistinguishable from a genuine 0 % topic — and only
the tag colour carries a distinct neutral marker (`var(--text-color)`);
for a topic with attempts the value is correct/total·100 and the colour is
one of the performance colours, never the neutral marker. -/
theorem claim_C5 (p : TopicPerf) :
    (p.total_solved = 0 → topicPercentage p = 0 ∧ topicColor p = "var(--text-color)") ∧
    (0 < p.total_solved →
      topicPercentage p = (p.correct_solved : ℚ) / (p.total_solved : ℚ) * 100 ∧
      topicColor p ≠ "var(--text-color)") := by
  constructor
  · intro h
    constructor
    · simp [topicPercentage, h]
    · simp [topicColor, h]
  · intro h
    refine ⟨by simp [topicPercentage, h], ?_⟩
    simp only [topicColor, if_pos h]
    split
    · decide
    · split <;> decide

/-- Witness for C5 (amended) at the unattempted entry `(0, 0)` and the
attempted entry `total = 2, correct = 1`. -/
theorem claim_C5_witness :
    (topicPercentage ⟨0, 0⟩ = 0 ∧ topicColor ⟨0, 0⟩ = "var(--text-color)") ∧
    (topicPercentage ⟨2, 1⟩ = ((1 : ℕ) : ℚ) / ((2 : ℕ) : ℚ) * 100 ∧
      topicColor ⟨2, 1⟩ ≠ "var(--text-color)") :=
  ⟨(claim_C5 ⟨0, 0⟩).1 rfl, (claim_C5 ⟨2, 1⟩).2 (by decide)⟩

/-- C9: the bookmark store appends on add with no uniqueness check; remove
deletes exactly the entries matching the `(question text, quiz topic)`
pair, so adding one snapshot to an empty store and removing with the
matching pair empties the store, and removing with a non-matching pair is
a no-op. -/
theorem claim_C9 :
    (∀ (bm : List BookmarkEntry) (e : BookmarkEntry), bookmarkAdd bm e = bm ++ [e]) ∧
    (∀ (e : BookmarkEntry) (q t : String), e.question = q → e.quiz_topic = t →
      bookmarkRemove (bookmarkAdd [] e) q t = []) ∧
    (∀ (bm : List BookmarkEntry) (q t : String),
      (∀ e ∈ bm, ¬(e.question = q ∧ e.quiz_topic = t)) → bookmarkRemove bm q t = bm) ∧
    (∀ (bm : List BookmarkEntry) (q t : String) (e : BookmarkEntry),
      e ∈ bookmarkRemove bm q t ↔ e ∈ bm ∧ ¬(e.question = q ∧ e.quiz_topic = t)) := by
  refine ⟨fun bm e => rfl, ?_, ?_, ?_⟩
  · intro e q t hq ht
    subst hq
    subst ht
    simp [bookmarkAdd, bookmarkRemove]
  · intro bm q t h
    rw [bookmarkRemove, List.filter_eq_self]
    intro e he
    rw [Bool.not_eq_true', decide_eq_false_iff_not]
    exact h e he
  · intro bm q t e
    simp only [bookmarkRemove, List.mem_filter, Bool.not_eq_true', decide_eq_false_iff_not]

/-- Witness for C9: one snapshot added then removed with its own pair
empties the store; removing with a different question text is a no-op. -/
theorem claim_C9_witness :
    bookmarkRemove (bookmarkAdd [] sampleEntry) "Q" "Optics" = [] ∧
    bookmarkRemove [sampleEntry] "Other" "Optics" = [sampleEntry] := by
  constructor
  · exact claim_C9.2.1 sampleEntry "Q" "Optics" rfl rfl
  · refine claim_C9.2.2.1 [sampleEntry] "Other" "Optics" ?_
    intro e he hc
    rw [List.mem_singleton] at he
    subst he
    exact absurd hc.1 (by decide)

/-- The effect of the common submit mutation on the four quantities the
spec names: stored entry, total-solved counter, score, ledger entry. -/
theorem applySubmit_spec (s : AppState) (idx : ℕ) (c b : Bool) :
    assocGet (applySubmit s idx c b).answered_questions s.current_question
      = some ⟨some (some idx), c, false, b⟩ ∧
    (applySubmit s idx c b).total_questions_solved = s.total_questions_solved + 1 ∧
    (applySubmit s idx c b).score = s.score + (if c then 1 else 0) ∧
    assocGet (applySubmit s idx c b).topic_performance s.current_quiz_main_topic
      = some ⟨((assocGet s.topic_performance s.current_quiz_main_topic).getD ⟨0, 0⟩).total_solved
            + 1,
          ((assocGet s.topic_performance s.current_quiz_main_topic).getD ⟨0, 0⟩).correct_solved
            + (if c then 1 else 0)⟩ := by
  refine ⟨?_, rfl, rfl, ?_⟩
  · exact assocGet_assocSet_self _ _ _
  · exact assocGet_assocSet_self _ _ _

/-- C1: submit on the current unanswered question with a valid choice
index stores `answered(choice_index, choice_index == correct_index)`
(bookmark flag preserved), increments the global total-solved counter by
exactly 1, increments the score iff the choice is correct, and records the
attempt in the topic ledger under the session's topic. -/
theorem claim_C1 (s : AppState) (q : Question) (selected_idx : ℕ)
    (hq : s.quiz_questions.get? s.current_question = some q)
    (_hvalid : selected_idx < q.answers.length)
    (hu : isUnanswered s.answered_questions s.current_question = true) :
    (∃ b, assocGet (submitAction s selected_idx).answered_questions s.current_question
        = some ⟨some (some selected_idx),
            decide ((selected_idx : ℤ) = q.correctAnswer), false, b⟩) ∧
    (submitAction s selected_idx).total_questions_solved = s.total_questions_solved + 1 ∧
    (submitAction s selected_idx).score
      = s.score + (if (selected_idx : ℤ) = q.correctAnswer then 1 else 0) ∧
    assocGet (submitAction s selected_idx).topic_performance s.current_quiz_main_topic
      = some ⟨((assocGet s.topic_performance s.current_quiz_main_topic).getD ⟨0, 0⟩).total_solved
            + 1,
          ((assocGet s.topic_performance s.current_quiz_main_topic).getD ⟨0, 0⟩).correct_solved
            + (if (selected_idx : ℤ) = q.correctAnswer then 1 else 0)⟩ := by
  have hite : (if decide ((selected_idx : ℤ) = q.correctAnswer) = true then (1 : ℕ) else 0)
      = (if (selected_idx : ℤ) = q.correctAnswer then 1 else 0) := by
    simp
  cases hget : assocGet s.answered_questions s.current_question with
  | none =>
    have hred : submitAction s selected_idx
        = applySubmit s selected_idx (decide ((selected_idx : ℤ) = q.correctAnswer)) false := by
      simp only [submitAction, hq, hget]
    obtain ⟨h1, h2, h3, h4⟩ :=
      applySubmit_spec s selected_idx (decide ((selected_idx : ℤ) = q.correctAnswer)) false
    rw [hred]
    exact ⟨⟨false, h1⟩, h2, by rw [h3, hite], by rw [h4, hite]⟩
  | some info =>
    simp only [isUnanswered, hget] at hu
    have hred : submitAction s selected_idx
        = applySubmit s selected_idx (decide ((selected_idx : ℤ) = q.correctAnswer))
            info.is_bookmarked := by
      simp only [submitAction, hq, hget, hu, eq_self_iff_true, if_true]
    obtain ⟨h1, h2, h3, h4⟩ :=
      applySubmit_spec s selected_idx (decide ((selected_idx : ℤ) = q.correctAnswer))
        info.is_bookmarked
    rw [hred]
    exact ⟨⟨info.is_bookmarked, h1⟩, h2, by rw [h3, hite], by rw [h4, hite]⟩

/-- Witness for C1: submitting choice 1 on the freshly generated sample
quiz (correct answer 1). -/
theorem claim_C1_witness :
    sampleStart.quiz_questions.get? sampleStart.current_question = some sampleQuestion ∧
    (1 : ℕ) < sampleQuestion.answers.length ∧
    isUnanswered sampleStart.answered_questions sampleStart.current_question = true ∧
    ((submitAction sampleStart 1).total_questions_solved
        = sampleStart.total_questions_solved + 1 ∧
      (submitAction sampleStart 1).score
        = sampleStart.score + (if ((1 : ℕ) : ℤ) = sampleQuestion.correctAnswer then 1 else 0)) :=
  ⟨rfl, by decide, rfl,
    ⟨(claim_C1 sampleStart sampleQuestion 1 rfl (by decide) rfl).2.1,
     (claim_C1 sampleStart sampleQuestion 1 rfl (by decide) rfl).2.2.1⟩⟩

/-- C2: skip on the current unanswered question advances the cursor by
exactly 1 and marks the question skipped; submit never advances the
cursor, in any state. -/
theorem claim_C2 (s : AppState) :
    (∀ idx, (submitAction s idx).current_question = s.current_question) ∧
    (∀ q, s.quiz_questions.get? s.current_question = some q →
      isUnanswered s.answered_questions s.current_question = true →
      (skipAction s).current_question = s.current_question + 1 ∧
      ∃ b, assocGet (skipAction s).answered_questions s.current_question
        = some ⟨some none, false, true, b⟩) := by
  constructor
  · intro idx
    unfold submitAction
    split
    · rfl
    · split
      · rfl
      · split
        · rfl
        · rfl
  · intro q hq hu
    cases hget : assocGet s.answered_questions s.current_question with
    | none =>
      have hred : skipAction s
          = { s with
              answered_questions :=
                assocSet s.answered_questions s.current_question ⟨some none, false, true, false⟩
              current_question := s.current_question + 1 } := by
        simp only [skipAction, hq, hget]
      rw [hred]
      exact ⟨rfl, ⟨false, assocGet_assocSet_self _ _ _⟩⟩
    | some info =>
      simp only [isUnanswered, hget] at hu
      have hred : skipAction s
          = { s with
              answered_questions :=
                assocSet s.answered_questions s.current_question
                  ⟨some none, false, true, info.is_bookmarked⟩
              current_question := s.current_question + 1 } := by
        simp only [skipAction, hq, hget, hu, eq_self_iff_true, if_true]
      rw [hred]
      exact ⟨rfl, ⟨info.is_bookmarked, assocGet_assocSet_self _ _ _⟩⟩

/-- Witness for C2 at the freshly generated sample quiz. -/
theorem claim_C2_witness :
    (submitAction sampleStart 0).current_question = sampleStart.current_question ∧
    sampleStart.quiz_questions.get? sampleStart.current_question = some sampleQuestion ∧
    isUnanswered sampleStart.answered_questions sampleStart.current_question = true ∧
    (skipAction sampleStart).current_question = sampleStart.current_question + 1 :=
  ⟨(claim_C2 sampleStart).1 0, rfl, rfl,
    ((claim_C2 sampleStart).2 sampleQuestion rfl rfl).1⟩

/-- C3: submit and skip on a question whose entry is already finalized
(has a stored `selected_idx` or is skipped) are rejected: the whole
session state — answer map, cursor, score, counters, ledger — is returned
unchanged. -/
theorem claim_C3 (s : AppState) (info : AnswerInfo) (idx : ℕ)
    (h : assocGet s.answered_questions s.current_question = some info)
    (hfin : info.selected_idx ≠ none ∨ info.is_skipped = true) :
    submitAction s idx = s ∧ skipAction s = s := by
  have hcond : (info.selected_idx.isNone && !info.is_skipped) = false := by
    rcases hfin with h1 | h1
    · cases hsel : info.selected_idx with
      | none => exact absurd hsel h1
      | some v => simp [hsel]
    · simp [h1]
  constructor
  · unfold submitAction
    cases hget : s.quiz_questions.get? s.current_question with
    | none => rfl
    | some q =>
      simp only [h, hcond, Bool.false_eq_true, if_false]
  · unfold skipAction
    cases hget : s.quiz_questions.get? s.current_question with
    | none => rfl
    | some q =>
      simp only [h, hcond, Bool.false_eq_true, if_false]

/-- Witness for C3: after submitting choice 0 on the sample quiz, a second
submit and a skip both leave the state unchanged. -/
theorem claim_C3_witness :
    assocGet (submitAction sampleStart 0).answered_questions
        (submitAction sampleStart 0).current_question
      = some ⟨some (some 0), false, false, false⟩ ∧
    submitAction (submitAction sampleStart 0) 2 = submitAction sampleStart 0 ∧
    skipAction (submitAction sampleStart 0) = submitAction sampleStart 0 := by
  refine ⟨rfl, ?_⟩
  have h := claim_C3 (submitAction sampleStart 0) ⟨some (some 0), false, false, false⟩ 2
    rfl (Or.inl (by decide))
  exact h

/-- C6: whenever no parseable JSON array can be located in the response
text — the first-`[`/last-`]` guard fails, or the located candidate fails
`json.loads` — the parser returns the empty question list together with a
diagnostic.  The embedding is a total function, so no exception reaches
the caller; the `except` clauses of `generate_quiz` are the `none` arms
here. -/
theorem claim_C6 (response_text : String)
    (h : locateCandidate (cleanText response_text) = none ∨
      ∃ cand, locateCandidate (cleanText response_text) = some cand ∧ jsonParse cand = none) :
    (generate_quiz_parse response_text).1 = [] ∧
    (generate_quiz_parse response_text).2.isSome = true := by
  rcases h with h | ⟨cand, hloc, hparse⟩
  · simp [generate_quiz_parse, h]
  · simp [generate_quiz_parse, hloc, hparse]

/-- Witness for C6 on the non-JSON input "hello world". -/
theorem claim_C6_witness :
    locateCandidate (cleanText "hello world") = none ∧
    (generate_quiz_parse "hello world").1 = [] ∧
    (generate_quiz_parse "hello world").2.isSome = true :=
  ⟨rfl, claim_C6 "hello world" (Or.inl rfl)⟩

/-! ## Setdefault lemmas for the normalization stage -/

theorem assocGet_append_self {κ α : Type} [DecidableEq κ] (m : List (κ × α)) (k : κ) (v : α)
    (h : assocGet m k = none) : assocGet (m ++ [(k, v)]) k = some v := by
  induction m with
  | nil => simp [assocGet]
  | cons p t ih =>
    obtain ⟨k1, v1⟩ := p
    by_cases hk : k1 = k
    · subst hk
      simp [assocGet] at h
    · simp only [assocGet, if_neg hk] at h
      simp only [List.cons_append, assocGet, if_neg hk]
      exact ih h

theorem assocGet_append_ne {κ α : Type} [DecidableEq κ] (m : List (κ × α)) (k k' : κ) (v : α)
    (hne : ¬ k = k') : assocGet (m ++ [(k, v)]) k' = assocGet m k' := by
  induction m with
  | nil => simp [assocGet, hne]
  | cons p t ih =>
    obtain ⟨k1, v1⟩ := p
    by_cases hk : k1 = k'
    · simp [assocGet, hk]
    · simp [assocGet, hk, ih]

theorem assocSet_append_self {κ α : Type} [DecidableEq κ] (m : List (κ × α)) (k : κ) (v w : α)
    (h : assocGet m k = none) : assocSet (m ++ [(k, v)]) k w = m ++ [(k, w)] := by
  induction m with
  | nil => simp [assocSet]
  | cons p t ih =>
    obtain ⟨k1, v1⟩ := p
    by_cases hk : k1 = k
    · subst hk
      simp [assocGet] at h
    · simp only [assocGet, if_neg hk] at h
      simp only [List.cons_append, assocSet, if_neg hk, List.append_eq, ih h]

theorem assocGet_assocSetdefault_self_of_none {κ α : Type} [DecidableEq κ]
    (m : List (κ × α)) (k : κ) (v : α) (h : assocGet m k = none) :
    assocGet (assocSetdefault m k v) k = some v := by
  simp only [assocSetdefault, h]
  exact assocGet_append_self m k v h

theorem assocSetdefault_of_some {κ α : Type} [DecidableEq κ]
    (m : List (κ × α)) (k : κ) (v w : α) (h : assocGet m k = some w) :
    assocSetdefault m k v = m := by
  simp only [assocSetdefault, h]

theorem assocGet_assocSetdefault_ne {κ α : Type} [DecidableEq κ]
    (m : List (κ × α)) (k k' : κ) (v : α) (hne : ¬ k = k') :
    assocGet (assocSetdefault m k v) k' = assocGet m k' := by
  cases hg : assocGet m k with
  | some w => simp only [assocSetdefault, hg]
  | none =>
    simp only [assocSetdefault, hg]
    exact assocGet_append_ne m k k' v hne

/-- C7: for every successfully parsed question object, a missing
`explanation` dict is created and a missing `detailed_steps` /
`youtube_link` sub-field is filled with the fixed placeholder / the empty
string — the question is normalized, never rejected, and present
sub-fields are kept; in particular, the spec's test input — prose plus a
fenced JSON array holding one question with `correctAnswer` 1 and no
explanation — yields exactly one question record with correct index 1,
both explanation fields default-filled, and no diagnostic. -/
theorem claim_C7 :
    (∀ kvs : List (String × Json), assocGet kvs "explanation" = none →
      normalizeQuestion (Json.obj kvs)
        = some (Json.obj (kvs ++ [("explanation", Json.obj
            [("detailed_steps", Json.str missingStepsPlaceholder),
             ("youtube_link", Json.str "")])]))) ∧
    (∀ kvs e : List (String × Json), assocGet kvs "explanation" = some (Json.obj e) →
      normalizeQuestion (Json.obj kvs)
        = some (Json.obj (assocSet kvs "explanation" (Json.obj (normalizeExplanation e))))) ∧
    (∀ e : List (String × Json),
      (assocGet e "detailed_steps" = none →
        assocGet (normalizeExplanation e) "detailed_steps"
          = some (Json.str missingStepsPlaceholder)) ∧
      (∀ v, assocGet e "detailed_steps" = some v →
        assocGet (normalizeExplanation e) "detailed_steps" = some v) ∧
      (assocGet e "youtube_link" = none →
        assocGet (normalizeExplanation e) "youtube_link" = some (Json.str "")) ∧
      (∀ v, assocGet e "youtube_link" = some v →
        assocGet (normalizeExplanation e) "youtube_link" = some v)) ∧
    generate_quiz_parse c7Input =
      ([Json.obj
          [("question", Json.str "Q"),
           ("answers", Json.arr [Json.str "a", Json.str "b", Json.str "c", Json.str "d"]),
           ("correctAnswer", Json.num 1),
           ("explanation", Json.obj
             [("detailed_steps", Json.str missingStepsPlaceholder),
              ("youtube_link", Json.str "")])]],
        none) := by
  have hne : ¬ ("youtube_link" : String) = "detailed_steps" := by decide
  have hne2 : ¬ ("detailed_steps" : String) = "youtube_link" := by decide
  refine ⟨?_, ?_, ?_, ?_⟩
  · intro kvs h
    have h1 : assocSetdefault kvs "explanation" (Json.obj [])
        = kvs ++ [("explanation", Json.obj [])] := by
      simp only [assocSetdefault, h]
    have h2 : assocGet (kvs ++ [("explanation", Json.obj [])]) "explanation"
        = some (Json.obj []) :=
      assocGet_append_self kvs _ _ h
    simp only [normalizeQuestion, h1, h2]
    rw [assocSet_append_self kvs _ _ _ h]
    rfl
  · intro kvs e h
    have h1 : assocSetdefault kvs "explanation" (Json.obj []) = kvs :=
      assocSetdefault_of_some kvs _ _ _ h
    simp only [normalizeQuestion, h1, h]
  · intro e
    refine ⟨?_, ?_, ?_, ?_⟩
    · intro h
      unfold normalizeExplanation
      rw [assocGet_assocSetdefault_ne _ _ _ _ hne]
      exact assocGet_assocSetdefault_self_of_none e _ _ h
    · intro v h
      unfold normalizeExplanation
      rw [assocGet_assocSetdefault_ne _ _ _ _ hne,
        assocSetdefault_of_some e _ _ _ h]
      exact h
    · intro h
      have h2 : assocGet (assocSetdefault e "detailed_steps"
          (Json.str missingStepsPlaceholder)) "youtube_link" = none := by
        rw [assocGet_assocSetdefault_ne _ _ _ _ hne2]
        exact h
      exact assocGet_assocSetdefault_self_of_none _ _ _ h2
    · intro v h
      have h2 : assocGet (assocSetdefault e "detailed_steps"
          (Json.str missingStepsPlaceholder)) "youtube_link" = some v := by
        rw [assocGet_assocSetdefault_ne _ _ _ _ hne2]
        exact h
      unfold normalizeExplanation
      rw [assocSetdefault_of_some _ _ _ _ h2]
      exact h2
  · rfl

/-- Witness for C7: a question object with no `explanation` key gets the
full default explanation appended; one whose explanation has only
`detailed_steps` keeps it and gains an empty `youtube_link`. -/
theorem claim_C7_witness :
    assocGet ([("question", Json.str "Q")] : List (String × Json)) "explanation" = none ∧
    normalizeQuestion (Json.obj [("question", Json.str "Q")])
      = some (Json.obj [("question", Json.str "Q"),
          ("explanation", Json.obj
            [("detailed_steps", Json.str missingStepsPlaceholder),
             ("youtube_link", Json.str "")])]) ∧
    normalizeQuestion (Json.obj [("explanation", Json.obj [("detailed_steps", Json.str "S")])])
      = some (Json.obj [("explanation",
          Json.obj (normalizeExplanation [("detailed_steps", Json.str "S")]))]) ∧
    assocGet (normalizeExplanation [("detailed_steps", Json.str "S")]) "detailed_steps"
      = some (Json.str "S") ∧
    assocGet (normalizeExplanation [("detailed_steps", Json.str "S")]) "youtube_link"
      = some (Json.str "") := by
  refine ⟨rfl, ?_, ?_, ?_, ?_⟩
  · exact claim_C7.1 [("question", Json.str "Q")] rfl
  · exact claim_C7.2.1 [("explanation", Json.obj [("detailed_steps", Json.str "S")])]
      [("detailed_steps", Json.str "S")] rfl
  · exact (claim_C7.2.2.1 [("detailed_steps", Json.str "S")]).2.1 (Json.str "S") rfl
  · exact (claim_C7.2.2.1 [("detailed_steps", Json.str "S")]).2.2.1 rfl

/-! ## Preservation lemmas for the application-level invariant -/

theorem submitAction_pres (s : AppState) (idx : ℕ) :
    (submitAction s idx).showing_quiz = s.showing_quiz ∧
    (submitAction s idx).quiz_questions = s.quiz_questions := by
  unfold submitAction
  split
  · exact ⟨rfl, rfl⟩
  · split
    · exact ⟨rfl, rfl⟩
    · split
      · exact ⟨rfl, rfl⟩
      · exact ⟨rfl, rfl⟩

theorem skipAction_pres (s : AppState) :
    (skipAction s).showing_quiz = s.showing_quiz ∧
    (skipAction s).quiz_questions = s.quiz_questions := by
  unfold skipAction
  split
  · exact ⟨rfl, rfl⟩
  · split
    · exact ⟨rfl, rfl⟩
    · split
      · exact ⟨rfl, rfl⟩
      · exact ⟨rfl, rfl⟩

theorem bookmarkAction_pres (s : AppState) :
    (bookmarkAction s).showing_quiz = s.showing_quiz ∧
    (bookmarkAction s).quiz_questions = s.quiz_questions := by
  unfold bookmarkAction
  split
  · exact ⟨rfl, rfl⟩
  · split
    · exact ⟨rfl, rfl⟩
    · split
      · exact ⟨rfl, rfl⟩
      · exact ⟨rfl, rfl⟩

theorem advanceAction_pres (s : AppState) :
    (advanceAction s).showing_quiz = s.showing_quiz ∧
    (advanceAction s).quiz_questions = s.quiz_questions := by
  unfold advanceAction
  split
  · exact ⟨rfl, rfl⟩
  · split
    · exact ⟨rfl, rfl⟩
    · split
      · exact ⟨rfl, rfl⟩
      · exact ⟨rfl, rfl⟩

/-- One step preserves the generator-page invariant: whenever the UI is
not showing a quiz, the stored question list is empty. -/
theorem AppStep_inv {s t : AppState} (hstep : AppStep s t)
    (ih : s.showing_quiz = false → s.quiz_questions = []) :
    t.showing_quiz = false → t.quiz_questions = [] := by
  cases hstep with
  | genSubmit result topic hfalse =>
    intro hshow
    by_cases hr : result.isEmpty
    · rw [List.isEmpty_iff] at hr
      simp [quizFormSubmit, hr]
    · simp [quizFormSubmit, hr] at hshow
  | submit idx htrue =>
    intro hshow
    rw [(submitAction_pres s idx).1, htrue] at hshow
    cases hshow
  | skip htrue =>
    intro hshow
    rw [(skipAction_pres s).1, htrue] at hshow
    cases hshow
  | bookmark htrue =>
    intro hshow
    rw [(bookmarkAction_pres s).1, htrue] at hshow
    cases hshow
  | advance htrue =>
    intro hshow
    rw [(advanceAction_pres s).1, htrue] at hshow
    cases hshow
  | complete today htrue hne hdone =>
    intro hshow
    have h2 : s.showing_quiz = false := hshow
    rw [htrue] at h2
    cases h2
  | startNew htrue hne hdone =>
    intro _
    rfl
  | backToGen htrue hempty =>
    intro _
    exact hempty
  | pdf a b qa weak =>
    intro hshow
    exact ih hshow
  | profileRemove bm =>
    intro hshow
    exact ih hshow
  | clearAll =>
    intro _
    rfl

/-- The generator-page invariant holds in every reachable state:
it holds initially and every user action preserves it, because the only
transitions out of the quiz view ("Start New Quiz", and "Back to Quiz
Generator", which is only rendered for an empty list) clear or require an
empty question list. -/
theorem appInv (s : AppState) (h : AppReachable s) :
    s.showing_quiz = false → s.quiz_questions = [] := by
  induction h with
  | refl => intro _; rfl
  | tail _ hstep ih => exact AppStep_inv hstep ih

/-- C8: in every reachable application state in which the quiz-generation
form can run (`showing_quiz` false), a generation attempt whose provider
call failed — `generate_quiz` returns the empty list — leaves the entire
session state unchanged: the assignment at line 127 of `quiz_module.py`
overwrites `quiz_questions` with the empty list it already holds, and the
quiz-entry branch (lines 129-139) is not taken, so questions, cursor,
score, answer map and all counters are exactly as before. -/
theorem claim_C8 (s : AppState) (topic : String) (hreach : AppReachable s)
    (hgen : s.showing_quiz = false) :
    quizFormSubmit s generate_quiz_failure topic = s := by
  have hempty := appInv s hreach hgen
  show quizFormSubmit s [] topic = s
  rw [show quizFormSubmit s [] topic = { s with quiz_questions := ([] : List Question) }
    from rfl, ← hempty]

/-- Witness for C8 at the initial state. -/
theorem claim_C8_witness :
    AppReachable initialState ∧ initialState.showing_quiz = false ∧
    quizFormSubmit initialState generate_quiz_failure "Optics" = initialState :=
  ⟨Relation.ReflTransGen.refl, rfl,
    claim_C8 initialState "Optics" Relation.ReflTransGen.refl rfl⟩

/-! ## The score invariant of a quiz session -/

theorem goodMap_set (m : List (ℕ × AnswerInfo)) (k : ℕ) (v : AnswerInfo)
    (h : goodMap m) (hv : v.selected_idx = none → v.is_correct = false) :
    goodMap (assocSet m k v) := by
  intro k' w hw hsel
  by_cases hk : k' = k
  · subst hk
    rw [assocGet_assocSet_self] at hw
    injection hw with hw
    subst hw
    exact hv hsel
  · rw [assocGet_assocSet_ne _ _ _ _ hk] at hw
    exact h k' w hw hsel

theorem countCorrect_set_of_some_false (m : List (ℕ × AnswerInfo)) (k : ℕ)
    (v w : AnswerInfo) (hget : assocGet m k = some w) (hw : w.is_correct = false) :
    countCorrect (assocSet m k v) = countCorrect m + (if v.is_correct then 1 else 0) := by
  have h2 := countCorrect_set_of_some m k v w hget
  rw [hw] at h2
  simpa using h2

theorem countCorrect_set_same (m : List (ℕ × AnswerInfo)) (k : ℕ)
    (v w : AnswerInfo) (hget : assocGet m k = some w) (he : v.is_correct = w.is_correct) :
    countCorrect (assocSet m k v) = countCorrect m := by
  have h2 := countCorrect_set_of_some m k v w hget
  rw [he] at h2
  omega

/-- In every state of a quiz session reachable from a fresh quiz, the
running score equals the number of answer-map entries with `is_correct`
set, and a bookmark-only entry never has `is_correct` set. -/
theorem quizInv (s : AppState) (h : QuizReach s) :
    s.score = countCorrect s.answered_questions ∧ goodMap s.answered_questions := by
  induction h with
  | start s0 result topic hr =>
    constructor
    · simp [quizFormSubmit, hr, countCorrect]
    · intro k v hget
      simp [quizFormSubmit, hr, assocGet] at hget
  | submit s0 idx hs ih =>
    obtain ⟨ihs, ihg⟩ := ih
    cases hq : s0.quiz_questions.get? s0.current_question with
    | none =>
      have hred : submitAction s0 idx = s0 := by
        simp only [submitAction, hq]
      rw [hred]
      exact ⟨ihs, ihg⟩
    | some q =>
      cases hget : assocGet s0.answered_questions s0.current_question with
      | none =>
        have hred : submitAction s0 idx
            = applySubmit s0 idx (decide ((idx : ℤ) = q.correctAnswer)) false := by
          simp only [submitAction, hq, hget]
        rw [hred]
        constructor
        · show s0.score + _
            = countCorrect (assocSet s0.answered_questions s0.current_question _)
          rw [countCorrect_set_of_none _ _ _ hget, ihs]
        · exact goodMap_set _ _ _ ihg (fun hsel => Option.noConfusion hsel)
      | some info =>
        by_cases hcond : (info.selected_idx.isNone && !info.is_skipped) = true
        · have hsel : info.selected_idx = none := by
            cases hselc : info.selected_idx with
            | none => rfl
            | some v =>
              rw [hselc] at hcond
              simp at hcond
          have hic : info.is_correct = false := ihg _ _ hget hsel
          have hred : submitAction s0 idx
              = applySubmit s0 idx (decide ((idx : ℤ) = q.correctAnswer))
                  info.is_bookmarked := by
            simp only [submitAction, hq, hget, hcond, eq_self_iff_true, if_true]
          rw [hred]
          constructor
          · show s0.score + _
              = countCorrect (assocSet s0.answered_questions s0.current_question _)
            rw [countCorrect_set_of_some_false _ _ _ _ hget hic, ihs]
          · exact goodMap_set _ _ _ ihg (fun hsel2 => Option.noConfusion hsel2)
        · have hred : submitAction s0 idx = s0 := by
            simp only [submitAction, hq, hget]
            rw [if_neg hcond]
          rw [hred]
          exact ⟨ihs, ihg⟩
  | skip s0 hs ih =>
    obtain ⟨ihs, ihg⟩ := ih
    cases hq : s0.quiz_questions.get? s0.current_question with
    | none =>
      have hred : skipAction s0 = s0 := by
        simp only [skipAction, hq]
      rw [hred]
      exact ⟨ihs, ihg⟩
    | some q =>
      cases hget : assocGet s0.answered_questions s0.current_question with
      | none =>
        have hred : skipAction s0
            = { s0 with
                answered_questions :=
                  assocSet s0.answered_questions s0.current_question
                    ⟨some none, false, true, false⟩
                current_question := s0.current_question + 1 } := by
          simp only [skipAction, hq, hget]
        rw [hred]
        constructor
        · show s0.score
            = countCorrect (assocSet s0.answered_questions s0.current_question _)
          rw [countCorrect_set_of_none _ _ _ hget]
          simpa using ihs
        · exact goodMap_set _ _ _ ihg (fun _ => rfl)
      | some info =>
        by_cases hcond : (info.selected_idx.isNone && !info.is_skipped) = true
        · have hsel : info.selected_idx = none := by
            cases hselc : info.selected_idx with
            | none => rfl
            | some v =>
              rw [hselc] at hcond
              simp at hcond
          have hic : info.is_correct = false := ihg _ _ hget hsel
          have hred : skipAction s0
              = { s0 with
                  answered_questions :=
                    assocSet s0.answered_questions s0.current_question
                      ⟨some none, false, true, info.is_bookmarked⟩
                  current_question := s0.current_question + 1 } := by
            simp only [skipAction, hq, hget, hcond, eq_self_iff_true, if_true]
          rw [hred]
          constructor
          · show s0.score
              = countCorrect (assocSet s0.answered_questions s0.current_question _)
            rw [countCorrect_set_of_some_false _ _ _ _ hget hic]
            simpa using ihs
          · exact goodMap_set _ _ _ ihg (fun _ => rfl)
        · have hred : skipAction s0 = s0 := by
            simp only [skipAction, hq, hget]
            rw [if_neg hcond]
          rw [hred]
          exact ⟨ihs, ihg⟩
  | bookmark s0 hs ih =>
    obtain ⟨ihs, ihg⟩ := ih
    cases hq : s0.quiz_questions.get? s0.current_question with
    | none =>
      have hred : bookmarkAction s0 = s0 := by
        simp only [bookmarkAction, hq]
      rw [hred]
      exact ⟨ihs, ihg⟩
    | some q =>
      cases hget : assocGet s0.answered_questions s0.current_question with
      | none =>
        have hans : (bookmarkAction s0).answered_questions
            = assocSet s0.answered_questions s0.current_question
                ⟨none, false, false, true⟩ := by
          simp only [bookmarkAction, hq, hget]
        have hscore : (bookmarkAction s0).score = s0.score := by
          simp only [bookmarkAction, hq, hget]
        constructor
        · rw [hscore, hans, countCorrect_set_of_none _ _ _ hget]
          simpa using ihs
        · rw [hans]
          exact goodMap_set _ _ _ ihg (fun _ => rfl)
      | some info =>
        have hans : (bookmarkAction s0).answered_questions
            = assocSet s0.answered_questions s0.current_question
                { info with is_bookmarked := !info.is_bookmarked } := by
          simp only [bookmarkAction, hq, hget]
          split <;> rfl
        have hscore : (bookmarkAction s0).score = s0.score := by
          simp only [bookmarkAction, hq, hget]
          split <;> rfl
        constructor
        · rw [hscore, hans,
            countCorrect_set_same _ _ { info with is_bookmarked := !info.is_bookmarked }
              info hget rfl]
          exact ihs
        · rw [hans]
          exact goodMap_set _ _ _ ihg
            (fun hsel => ihg s0.current_question info hget hsel)
  | advance s0 hs ih =>
    obtain ⟨ihs, ihg⟩ := ih
    have hans : (advanceAction s0).answered_questions = s0.answered_questions := by
      unfold advanceAction
      split
      · rfl
      · split
        · rfl
        · split
          · rfl
          · rfl
    have hscore : (advanceAction s0).score = s0.score := by
      unfold advanceAction
      split
      · rfl
      · split
        · rfl
        · split
          · rfl
          · rfl
    rw [hscore, hans]
    exact ⟨ihs, ihg⟩

/-- C10: in every quiz-session state reachable from a fresh quiz by
submit, skip, bookmark and advance, the running score equals the number of
answer-map entries whose `is_correct` flag is set; a skip stores
`is_correct = false` and `is_skipped = true` and changes neither the
score, nor the global counters, nor the topic ledger. -/
theorem claim_C10 :
    (∀ s, QuizReach s → s.score = countCorrect s.answered_questions) ∧
    (∀ s : AppState, (skipAction s).score = s.score ∧
      (skipAction s).total_questions_solved = s.total_questions_solved ∧
      (skipAction s).total_correct_answers = s.total_correct_answers ∧
      (skipAction s).topic_performance = s.topic_performance) ∧
    (∀ s q, s.quiz_questions.get? s.current_question = some q →
      isUnanswered s.answered_questions s.current_question = true →
      ∃ b, assocGet (skipAction s).answered_questions s.current_question
        = some ⟨some none, false, true, b⟩) := by
  refine ⟨fun s hs => (quizInv s hs).1, ?_, ?_⟩
  · intro s
    unfold skipAction
    split
    · exact ⟨rfl, rfl, rfl, rfl⟩
    · split
      · exact ⟨rfl, rfl, rfl, rfl⟩
      · split
        · exact ⟨rfl, rfl, rfl, rfl⟩
        · exact ⟨rfl, rfl, rfl, rfl⟩
  · intro s q hq hu
    cases hget : assocGet s.answered_questions s.current_question with
    | none =>
      have hred : (skipAction s).answered_questions
          = assocSet s.answered_questions s.current_question
              ⟨some none, false, true, false⟩ := by
        simp only [skipAction, hq, hget]
      rw [hred]
      exact ⟨false, assocGet_assocSet_self _ _ _⟩
    | some info =>
      simp only [isUnanswered, hget] at hu
      have hred : (skipAction s).answered_questions
          = assocSet s.answered_questions s.current_question
              ⟨some none, false, true, info.is_bookmarked⟩ := by
        simp only [skipAction, hq, hget, hu, eq_self_iff_true, if_true]
      rw [hred]
      exact ⟨info.is_bookmarked, assocGet_assocSet_self _ _ _⟩

/-- Witness for C10 at the freshly generated sample quiz. -/
theorem claim_C10_witness :
    QuizReach sampleStart ∧
    sampleStart.score = countCorrect sampleStart.answered_questions ∧
    (skipAction sampleStart).score = sampleStart.score :=
  ⟨QuizReach.start initialState [sampleQuestion] "Optics" rfl,
   claim_C10.1 sampleStart (QuizReach.start initialState [sampleQuestion] "Optics" rfl),
   (claim_C10.2.1 sampleStart).1⟩
